import Mathlib

/-!
Verification development for the open-kiro reactive automation core.

The definitions below are a shallow embedding of the TypeScript sources:
the AgentController workflow state machine and code-change approval queue,
the HookManager event dispatch engine, and the ConfigWatcher / ConfigReloader
pair.  JavaScript Map objects are modelled as association lists with the
Map.set replace-in-place-or-append semantics, promises as explicit Except
values, and the external collaborators (filesystem sink, message sender,
process runner, document managers) as record-of-functions environments.
-/

/-- Model of a JavaScript Map keyed by strings as an association list.
Map.set replaces the value in place when the key is present and appends a
new entry otherwise. -/
def setKey {α : Type} : List (String × α) → String → α → List (String × α)
  | [], k, v => [(k, v)]
  | (k1, v1) :: rest, k, v =>
    if k1 == k then (k, v) :: rest else (k1, v1) :: setKey rest k v

theorem setKey_lookup {α : Type} (m : List (String × α)) (k : String) (v : α) :
    (setKey m k v).lookup k = some v := by
  induction m with
  | nil => simp [setKey, List.lookup]
  | cons p rest ih =>
    by_cases h : p.1 == k
    · simp [setKey, h, List.lookup]
    · simp only [setKey]
      rw [if_neg (by simpa using h)]
      simp only [List.lookup]
      have hk : (k == p.1) = false := by
        simpa [BEq.comm] using h
      rw [hk]
      exact ih

/-- Model of the source check `!s || s.trim().length === 0`: the string is
empty or consists of whitespace only. -/
def isBlank (s : String) : Bool := s.data.all Char.isWhitespace

namespace AgentController

/-- Spec workflow phases (type SpecPhase in agent-controller). -/
inductive SpecPhase where
  | requirements
  | design
  | tasks
  | implementation
deriving DecidableEq, Repr

/-- Spec workflow state (interface SpecWorkflowState). -/
structure SpecWorkflowState where
  specName : String
  currentPhase : SpecPhase
  requirementsApproved : Bool
  designApproved : Bool
  tasksApproved : Bool
deriving DecidableEq, Repr

/-- File edit operation of a CodeChange. -/
inductive FileOperation where
  | create
  | update
  | delete
deriving DecidableEq, Repr

/-- A proposed file edit (interface CodeChange in types). -/
structure CodeChange where
  path : String
  content : String
  operation : FileOperation
deriving DecidableEq, Repr

/-- Pending code change with approval status (interface PendingCodeChange).
The Date timestamp is modelled as a natural number. -/
structure PendingCodeChange where
  id : String
  changes : List CodeChange
  approved : Bool
  timestamp : Nat
deriving DecidableEq, Repr

/-- The filesystem sink used by applyApprovedChanges (IFileSystemAdapter
restricted to the two operations the method calls).  Each operation either
succeeds or throws, modelled by Except. -/
structure FileSystemSink where
  writeFile : String → String → Except String Unit
  delete : String → Except String Unit

/-- A call made to the filesystem sink (observable effect trace). -/
inductive FsOp where
  | write (path content : String)
  | remove (path : String)
deriving DecidableEq, Repr

/-- The body of the inner loop of applyApprovedChanges for one edit: the
switch on change.operation, with the try/catch that logs and continues on
failure.  Returns the edits that were successfully applied (pushed onto
appliedChanges) together with the sink calls that were made. -/
def applyChange (fs : FileSystemSink) (change : CodeChange) :
    List CodeChange × List FsOp :=
  match change.operation with
  | .create | .update =>
    match fs.writeFile change.path change.content with
    | .ok _ => ([change], [.write change.path change.content])
    | .error _ => ([], [.write change.path change.content])
  | .delete =>
    match fs.delete change.path with
    | .ok _ => ([change], [.remove change.path])
    | .error _ => ([], [.remove change.path])

/-- One iteration of the outer loop of applyApprovedChanges: an entry that
is not approved is skipped (continue), otherwise every one of its edits is
processed in order. -/
def applyPending (fs : FileSystemSink) (pending : PendingCodeChange) :
    List CodeChange × List FsOp :=
  if !pending.approved then ([], [])
  else
    let results := pending.changes.map (applyChange fs)
    ((results.map Prod.fst).flatten, (results.map Prod.snd).flatten)

/-- AgentController.applyApprovedChanges.  Input is the current
session.pendingChanges list; output is the returned appliedChanges list,
the new session.pendingChanges list (the source keeps exactly the entries
with approved set to false), and the trace of filesystem sink calls. -/
def applyApprovedChanges (fs : FileSystemSink)
    (pendingChanges : List PendingCodeChange) :
    List CodeChange × List PendingCodeChange × List FsOp :=
  let results := pendingChanges.map (applyPending fs)
  ((results.map Prod.fst).flatten,
   pendingChanges.filter (fun c => !c.approved),
   (results.map Prod.snd).flatten)

/-- AgentController.getPendingChanges: the entries whose approval flag is
still false. -/
def getPendingChanges (pendingChanges : List PendingCodeChange) :
    List PendingCodeChange :=
  pendingChanges.filter (fun c => !c.approved)

/-- Specification-side description of the sink call an edit gives rise to:
create and update write, delete removes. -/
def sinkOpOf (change : CodeChange) : FsOp :=
  match change.operation with
  | .create | .update => .write change.path change.content
  | .delete => .remove change.path

/-- Specification-side description of the full sink trace: every edit of
every approved entry, in order, and nothing else. -/
def approvedSinkOps (pendingChanges : List PendingCodeChange) : List FsOp :=
  ((pendingChanges.filter (fun c => c.approved)).map
    (fun p => p.changes.map sinkOpOf)).flatten

/-- AgentController.getOrCreateWorkflowState: look the spec name up in the
session map, creating the initial state (phase requirements, no approvals)
when absent. -/
def getOrCreateWorkflowState (workflows : List (String × SpecWorkflowState))
    (specName : String) : SpecWorkflowState :=
  match workflows.lookup specName with
  | some state => state
  | none =>
    { specName := specName
      currentPhase := .requirements
      requirementsApproved := false
      designApproved := false
      tasksApproved := false }

/-- AgentController.canTransitionToPhase: the approval-gate predicate. -/
def canTransitionToPhase (workflows : List (String × SpecWorkflowState))
    (specName : String) (targetPhase : SpecPhase) : Bool :=
  let state := getOrCreateWorkflowState workflows specName
  match targetPhase with
  | .requirements => true
  | .design => state.requirementsApproved
  | .tasks => state.designApproved
  | .implementation => state.tasksApproved

/-- AgentController.transitionToPhase: sets the current phase when the gate
allows it.  Returns the success flag and the updated session map. -/
def transitionToPhase (workflows : List (String × SpecWorkflowState))
    (specName : String) (targetPhase : SpecPhase) :
    Bool × List (String × SpecWorkflowState) :=
  if !canTransitionToPhase workflows specName targetPhase then
    (false, workflows)
  else
    let state := getOrCreateWorkflowState workflows specName
    (true, setKey workflows specName { state with currentPhase := targetPhase })

/-- AgentController.approveCurrentPhase: switch on the current phase,
setting the approval flag of that phase and advancing.  At implementation
the source returns true without changing anything.  The updated session map
is returned next to the boolean result. -/
def approveCurrentPhase (workflows : List (String × SpecWorkflowState))
    (specName : String) : Bool × List (String × SpecWorkflowState) :=
  let state := getOrCreateWorkflowState workflows specName
  match state.currentPhase with
  | .requirements =>
    (true, setKey workflows specName
      { state with requirementsApproved := true, currentPhase := .design })
  | .design =>
    (true, setKey workflows specName
      { state with designApproved := true, currentPhase := .tasks })
  | .tasks =>
    (true, setKey workflows specName
      { state with tasksApproved := true, currentPhase := .implementation })
  | .implementation =>
    (true, setKey workflows specName state)

/-- AgentController.resetPhaseApproval: the cascade reset switch. -/
def resetPhaseApproval (workflows : List (String × SpecWorkflowState))
    (specName : String) (phase : SpecPhase) :
    List (String × SpecWorkflowState) :=
  let state := getOrCreateWorkflowState workflows specName
  match phase with
  | .requirements =>
    setKey workflows specName
      { state with requirementsApproved := false, designApproved := false,
                   tasksApproved := false, currentPhase := .requirements }
  | .design =>
    setKey workflows specName
      { state with designApproved := false, tasksApproved := false,
                   currentPhase :=
                     if state.currentPhase ≠ .requirements then .design
                     else state.currentPhase }
  | .tasks =>
    setKey workflows specName
      { state with tasksApproved := false,
                   currentPhase :=
                     if state.currentPhase = .implementation then .tasks
                     else state.currentPhase }
  | .implementation => setKey workflows specName state

/-- Specification-side successor of a phase in the approval sequence, with
implementation terminal. -/
def nextPhase : SpecPhase → SpecPhase
  | .requirements => .design
  | .design => .tasks
  | .tasks => .implementation
  | .implementation => .implementation

theorem getOrCreate_setKey (workflows : List (String × SpecWorkflowState))
    (specName : String) (st : SpecWorkflowState) :
    getOrCreateWorkflowState (setKey workflows specName st) specName = st := by
  simp [getOrCreateWorkflowState, setKey_lookup]

theorem applyChange_snd (fs : FileSystemSink) (c : CodeChange) :
    (applyChange fs c).2 = [sinkOpOf c] := by
  unfold applyChange sinkOpOf
  cases c.operation with
  | create => cases fs.writeFile c.path c.content <;> rfl
  | update => cases fs.writeFile c.path c.content <;> rfl
  | delete => cases fs.delete c.path <;> rfl

theorem applyChanges_trace (fs : FileSystemSink) (l : List CodeChange) :
    (List.map (Prod.snd ∘ applyChange fs) l).flatten = l.map sinkOpOf := by
  induction l with
  | nil => rfl
  | cons c t ih =>
    simp only [List.map_cons, List.flatten_cons, Function.comp_apply,
      applyChange_snd, ih, List.singleton_append]

theorem applyPending_trace (fs : FileSystemSink) (p : PendingCodeChange) :
    (applyPending fs p).2 =
      if p.approved then p.changes.map sinkOpOf else [] := by
  cases hp : p.approved <;>
    simp [applyPending, hp, applyChanges_trace]

theorem approvedSinkOps_cons (p : PendingCodeChange)
    (t : List PendingCodeChange) :
    approvedSinkOps (p :: t) =
      (if p.approved then p.changes.map sinkOpOf else []) ++
        approvedSinkOps t := by
  cases hp : p.approved <;> simp [approvedSinkOps, List.filter_cons, hp]

theorem applyPendings_trace (fs : FileSystemSink)
    (pendingChanges : List PendingCodeChange) :
    (List.map (Prod.snd ∘ applyPending fs) pendingChanges).flatten =
      approvedSinkOps pendingChanges := by
  induction pendingChanges with
  | nil => rfl
  | cons p t ih =>
    simp only [List.map_cons, List.flatten_cons, Function.comp_apply,
      applyPending_trace, ih, approvedSinkOps_cons]

theorem applyApprovedChanges_trace (fs : FileSystemSink)
    (pendingChanges : List PendingCodeChange) :
    (applyApprovedChanges fs pendingChanges).2.2 =
      approvedSinkOps pendingChanges := by
  simp [applyApprovedChanges, List.map_map, applyPendings_trace]

/-- C1: applyApprovedChanges never touches the filesystem sink for an entry
whose approval flag is false; the full sink-call trace is exactly the edits
of the approved entries (one call per edit, independent of any single
failure, so a failing edit does not stop later ones); and the unapproved
entries survive unchanged and are still returned by getPendingChanges. -/
theorem applyApprovedChanges_approval_gate (fs : FileSystemSink)
    (pendingChanges : List PendingCodeChange) :
    (applyApprovedChanges fs pendingChanges).2.2 = approvedSinkOps pendingChanges
    ∧ (applyApprovedChanges fs pendingChanges).2.1 =
        getPendingChanges pendingChanges
    ∧ getPendingChanges (applyApprovedChanges fs pendingChanges).2.1 =
        getPendingChanges pendingChanges := by
  refine ⟨applyApprovedChanges_trace fs pendingChanges, rfl, ?_⟩
  simp [applyApprovedChanges, getPendingChanges, List.filter_filter]

/-- C2: the phase gate of canTransitionToPhase: requirements is always
reachable, design only with requirementsApproved, tasks only with
designApproved, implementation only with tasksApproved. -/
theorem canTransitionToPhase_gated
    (workflows : List (String × SpecWorkflowState)) (specName : String) :
    canTransitionToPhase workflows specName .requirements = true
    ∧ (canTransitionToPhase workflows specName .design = true →
        (getOrCreateWorkflowState workflows specName).requirementsApproved = true)
    ∧ (canTransitionToPhase workflows specName .tasks = true →
        (getOrCreateWorkflowState workflows specName).designApproved = true)
    ∧ (canTransitionToPhase workflows specName .implementation = true →
        (getOrCreateWorkflowState workflows specName).tasksApproved = true) :=
  ⟨rfl, fun h => h, fun h => h, fun h => h⟩

theorem canTransitionToPhase_gated_witness :
    canTransitionToPhase
        [("demo", ⟨"demo", .design, true, false, false⟩)] "demo"
        .requirements = true
    ∧ (getOrCreateWorkflowState
        [("demo", ⟨"demo", .design, true, false, false⟩)]
        "demo").requirementsApproved = true :=
  ⟨(canTransitionToPhase_gated
      [("demo", ⟨"demo", .design, true, false, false⟩)] "demo").1,
   (canTransitionToPhase_gated
      [("demo", ⟨"demo", .design, true, false, false⟩)] "demo").2.1
      (by decide)⟩

/-- C7 counterexample: with the workflow already at implementation,
approveCurrentPhase returns true although no advance occurs and the state
is unchanged, so the boolean return value does not report whether an
advance occurred. -/
theorem approveCurrentPhase_returns_true_without_advance :
    (approveCurrentPhase
        [("s", ⟨"s", .implementation, true, true, true⟩)] "s").1 = true
    ∧ (approveCurrentPhase
        [("s", ⟨"s", .implementation, true, true, true⟩)] "s").2 =
        [("s", ⟨"s", .implementation, true, true, true⟩)] := by
  decide

/-- C7 amended: approveCurrentPhase sets the approval flag of the current
phase and advances to the next phase in the sequence, with implementation a
terminal no-op; the boolean return value is true for every phase, including
the no-op at implementation, so it does not distinguish whether an advance
occurred. -/
theorem approveCurrentPhase_behavior
    (workflows : List (String × SpecWorkflowState)) (specName : String) :
    (approveCurrentPhase workflows specName).1 = true
    ∧ (getOrCreateWorkflowState (approveCurrentPhase workflows specName).2
        specName).currentPhase =
        nextPhase (getOrCreateWorkflowState workflows specName).currentPhase
    ∧ ((getOrCreateWorkflowState workflows specName).currentPhase =
          .requirements →
        getOrCreateWorkflowState (approveCurrentPhase workflows specName).2
          specName =
        { getOrCreateWorkflowState workflows specName with
            requirementsApproved := true, currentPhase := .design })
    ∧ ((getOrCreateWorkflowState workflows specName).currentPhase = .design →
        getOrCreateWorkflowState (approveCurrentPhase workflows specName).2
          specName =
        { getOrCreateWorkflowState workflows specName with
            designApproved := true, currentPhase := .tasks })
    ∧ ((getOrCreateWorkflowState workflows specName).currentPhase = .tasks →
        getOrCreateWorkflowState (approveCurrentPhase workflows specName).2
          specName =
        { getOrCreateWorkflowState workflows specName with
            tasksApproved := true, currentPhase := .implementation })
    ∧ ((getOrCreateWorkflowState workflows specName).currentPhase =
          .implementation →
        getOrCreateWorkflowState (approveCurrentPhase workflows specName).2
          specName =
        getOrCreateWorkflowState workflows specName) := by
  cases h : (getOrCreateWorkflowState workflows specName).currentPhase <;>
    simp [approveCurrentPhase, nextPhase, h, getOrCreate_setKey]

theorem approveCurrentPhase_behavior_witness :
    (approveCurrentPhase [] "w").1 = true
    ∧ getOrCreateWorkflowState (approveCurrentPhase [] "w").2 "w" =
        ⟨"w", .design, true, false, false⟩ := by
  have h := approveCurrentPhase_behavior [] "w"
  exact ⟨h.1, h.2.2.1 rfl⟩

/-- C8: the cascade semantics of resetPhaseApproval.  Resetting
requirements clears all three approvals and forces the phase back to
requirements.  Resetting design clears the design and tasks approvals,
leaves requirementsApproved intact, moves the phase back to design when it
was past design, and leaves the phase alone at requirements or design.
Resetting tasks clears only the tasks approval and moves the phase back to
tasks exactly when it was implementation. -/
theorem resetPhaseApproval_cascade
    (workflows : List (String × SpecWorkflowState)) (specName : String) :
    ((getOrCreateWorkflowState
        (resetPhaseApproval workflows specName .requirements) specName) =
      { getOrCreateWorkflowState workflows specName with
          requirementsApproved := false, designApproved := false,
          tasksApproved := false, currentPhase := .requirements })
    ∧ ((getOrCreateWorkflowState
          (resetPhaseApproval workflows specName .design)
          specName).requirementsApproved =
          (getOrCreateWorkflowState workflows specName).requirementsApproved
        ∧ (getOrCreateWorkflowState
            (resetPhaseApproval workflows specName .design)
            specName).designApproved = false
        ∧ (getOrCreateWorkflowState
            (resetPhaseApproval workflows specName .design)
            specName).tasksApproved = false
        ∧ (((getOrCreateWorkflowState workflows specName).currentPhase = .tasks
            ∨ (getOrCreateWorkflowState workflows specName).currentPhase =
                .implementation) →
            (getOrCreateWorkflowState
              (resetPhaseApproval workflows specName .design)
              specName).currentPhase = .design)
        ∧ (((getOrCreateWorkflowState workflows specName).currentPhase =
              .requirements
            ∨ (getOrCreateWorkflowState workflows specName).currentPhase =
                .design) →
            (getOrCreateWorkflowState
              (resetPhaseApproval workflows specName .design)
              specName).currentPhase =
            (getOrCreateWorkflowState workflows specName).currentPhase))
    ∧ ((getOrCreateWorkflowState
          (resetPhaseApproval workflows specName .tasks)
          specName).requirementsApproved =
          (getOrCreateWorkflowState workflows specName).requirementsApproved
        ∧ (getOrCreateWorkflowState
            (resetPhaseApproval workflows specName .tasks)
            specName).designApproved =
            (getOrCreateWorkflowState workflows specName).designApproved
        ∧ (getOrCreateWorkflowState
            (resetPhaseApproval workflows specName .tasks)
            specName).tasksApproved = false
        ∧ ((getOrCreateWorkflowState workflows specName).currentPhase =
              .implementation →
            (getOrCreateWorkflowState
              (resetPhaseApproval workflows specName .tasks)
              specName).currentPhase = .tasks)
        ∧ ((getOrCreateWorkflowState workflows specName).currentPhase ≠
              .implementation →
            (getOrCreateWorkflowState
              (resetPhaseApproval workflows specName .tasks)
              specName).currentPhase =
            (getOrCreateWorkflowState workflows specName).currentPhase)) := by
  cases h : (getOrCreateWorkflowState workflows specName).currentPhase <;>
    simp [resetPhaseApproval, getOrCreate_setKey, h]

theorem resetPhaseApproval_cascade_witness :
    (getOrCreateWorkflowState
      (resetPhaseApproval
        [("s", ⟨"s", .implementation, true, true, true⟩)] "s" .design)
      "s").currentPhase = .design
    ∧ (getOrCreateWorkflowState
        (resetPhaseApproval
          [("s", ⟨"s", .implementation, true, true, true⟩)] "s" .design)
        "s").tasksApproved = false
    ∧ (getOrCreateWorkflowState
        (resetPhaseApproval
          [("s", ⟨"s", .implementation, true, true, true⟩)] "s" .design)
        "s").requirementsApproved = true := by
  have h := resetPhaseApproval_cascade
    [("s", ⟨"s", .implementation, true, true, true⟩)] "s"
  obtain ⟨-, ⟨hra, hda, hta, hpast, -⟩, -⟩ := h
  refine ⟨hpast (Or.inr (by decide)), hta, ?_⟩
  rw [hra]
  decide

end AgentController

namespace HookManager

/-- Event types that can trigger hooks (type HookEventType). -/
inductive HookEventType where
  | file_save
  | message_sent
  | session_created
  | agent_complete
  | manual
deriving DecidableEq, Repr

/-- Tagged trigger variant (type HookTrigger in types). -/
inductive HookTrigger where
  | file_save (pattern : Option String)
  | message_sent
  | session_created
  | agent_complete
  | manual
deriving DecidableEq, Repr

/-- The tag of a trigger, compared against the emitted event type. -/
def HookTrigger.eventType : HookTrigger → HookEventType
  | .file_save _ => .file_save
  | .message_sent => .message_sent
  | .session_created => .session_created
  | .agent_complete => .agent_complete
  | .manual => .manual

/-- Tagged action variant (type HookAction in types). -/
inductive HookAction where
  | send_message (message : String)
  | execute_command (command : String) (cwd : Option String)
deriving DecidableEq, Repr

/-- Optional hook condition record (interface HookCondition); carried but
never read by the hook manager. -/
structure HookCondition where
  type : String
  value : String
deriving DecidableEq, Repr

/-- Hook configuration (interface HookConfig). -/
structure HookConfig where
  id : String
  name : String
  description : Option String
  trigger : HookTrigger
  action : HookAction
  enabled : Bool
  conditions : Option (List HookCondition)
deriving DecidableEq, Repr

/-- Outcome of one hook action (interface HookResult). -/
structure HookResult where
  success : Bool
  output : Option String
  error : Option String
deriving DecidableEq, Repr

/-- Event payload handed to emit (interface HookContext). -/
structure HookContext where
  event : Option String
  filePath : Option String
  message : Option String
  specName : Option String
  taskId : Option String
deriving DecidableEq, Repr

/-- External collaborators of the action executors: the optional message
sender (null until setMessageSender is called) and the process runner
behind execAsync.  A call either returns (stdout, stderr) or throws. -/
structure HookEnv where
  messageSender : Option (String → Except String Unit)
  execCommand : String → Option String → Except String (String × String)

/-- Log entries produced through the IHookLogger; the formatting of the
message text is abstracted, the logged data is kept. -/
inductive HookLog where
  | hookExecutionFailed (hookId : String) (err : String)
  | eventHandlerFailed (eventType : HookEventType) (err : String)
deriving DecidableEq, Repr

/-- HookManager.validateHook.  The source checks that id and name are
present and not whitespace-only, that trigger and action carry a type tag,
and that a send_message action has a message field and an execute_command
action a command field (the JavaScript in operator, a presence test).  In
the typed embedding the tag and field-presence checks hold structurally
for every value, so only the two blank checks remain; note that no check
inspects the content of message or command. -/
def validateHook (hook : HookConfig) : Except String Unit :=
  if isBlank hook.id then .error "Hook ID cannot be empty"
  else if isBlank hook.name then .error "Hook name cannot be empty"
  else .ok ()

/-- In-memory hook map and the persisted hook files of the document store.
File contents are the serialized configurations; JSON serialization is
modelled as the identity. -/
structure HookState where
  files : List (String × HookConfig)
  hooks : List (String × HookConfig)
deriving DecidableEq, Repr

/-- HookManager.getHookPath. -/
def getHookPath (hookId : String) : String :=
  ".kiro/hooks/" ++ hookId ++ ".json"

/-- HookManager.registerHook: validate, persist the file, then set the
in-memory map entry.  The in-memory filesystem adapter never fails, and
mkdir on it is a no-op, so the persistence steps always succeed.  There is
no duplicate-id check: Map.set and the file write silently replace any
existing entry. -/
def registerHook (state : HookState) (hook : HookConfig) :
    Except String HookState :=
  match validateHook hook with
  | .error e => .error e
  | .ok _ =>
    .ok { files := setKey state.files (getHookPath hook.id) hook
          hooks := setKey state.hooks hook.id hook }

/-- Fuel-indexed replace-all on character lists (the fuel is the length of
the subject, enough for every step that consumes at least one character). -/
def replaceAllAux : Nat → List Char → List Char → List Char → List Char
  | 0, rest, _, _ => rest
  | _ + 1, [], _, _ => []
  | n + 1, c :: rest, pat, rep =>
    if pat ≠ [] ∧ (c :: rest).take pat.length = pat then
      rep ++ replaceAllAux n ((c :: rest).drop pat.length) pat rep
    else
      c :: replaceAllAux n rest pat rep

/-- Global literal replacement, the semantics of the source replace calls
with a global literal regular expression. -/
def replaceAll (s pat rep : String) : String :=
  ⟨replaceAllAux s.data.length s.data pat.data rep.data⟩

/-- HookManager.interpolateMessage: substitute the recognized placeholders
from the context when the corresponding field is present. -/
def interpolateMessage (message : String) (context : HookContext) : String :=
  let r1 := match context.filePath with
    | some filePath => replaceAll message "{filePath}" filePath
    | none => message
  let r2 := match context.message with
    | some m => replaceAll r1 "{message}" m
    | none => r1
  match context.event with
  | some e => replaceAll r2 "{event}" e
  | none => r2

/-- HookManager.executeSendMessage: reported failure when no sender is
configured; otherwise send the interpolated message, catching a throw into
a failure result. -/
def executeSendMessage (env : HookEnv) (message : String)
    (context : HookContext) : HookResult :=
  match env.messageSender with
  | none => { success := false, output := none,
              error := some "No message sender configured" }
  | some send =>
    let interpolatedMessage := interpolateMessage message context
    match send interpolatedMessage with
    | .ok _ => { success := true, output := some interpolatedMessage,
                 error := none }
    | .error e => { success := false, output := none, error := some e }

/-- HookManager.executeCommand: run the command, catching a throw (spawn
failure or nonzero exit) into a failure result; on success the output is
stdout when nonempty, stderr otherwise (the source stdout-or-stderr
truthiness choice). -/
def executeCommand (env : HookEnv) (command : String) (cwd : Option String) :
    HookResult :=
  match env.execCommand command cwd with
  | .ok (stdout, stderr) =>
    { success := true,
      output := some (if stdout ≠ "" then stdout else stderr),
      error := none }
  | .error e => { success := false, output := none, error := some e }

/-- HookManager.executeHookAction: dispatch on the action tag.  In the
typed embedding the unknown-action fallback branch of the source is
unreachable.  Every failure inside the executors is caught there, so this
function is total and never throws. -/
def executeHookAction (env : HookEnv) (hook : HookConfig)
    (context : HookContext) : HookResult :=
  match hook.action with
  | .send_message message => executeSendMessage env message context
  | .execute_command command cwd => executeCommand env command cwd

/-- The pattern gate inside the dispatch loop of emit: a file_save trigger
with a pattern filters only when the context carries a filePath; when any
of the three is missing the hook is not skipped.  The private
matchesPattern glob matcher is passed in as a parameter (its regular
expression semantics is irrelevant to the dispatch structure). -/
def patternGate (mp : String → String → Bool) (hook : HookConfig)
    (context : HookContext) : Bool :=
  match hook.trigger, context.filePath with
  | .file_save (some pattern), some filePath => mp filePath pattern
  | _, _ => true

/-- The body of the dispatch loop of emit for one matching hook: execute
the action and log when the result is a failure whose error text is truthy
(the source guards the log call with result.error). -/
def runHook (env : HookEnv) (hook : HookConfig) (context : HookContext) :
    (String × HookResult) × List HookLog :=
  let result := executeHookAction env hook context
  ((hook.id, result),
   match result.success, result.error with
   | false, some e =>
     if e ≠ "" then [.hookExecutionFailed hook.id e] else []
   | _, _ => [])

/-- One listener notification at the end of emit: a throwing handler is
caught and logged. -/
def notifyListener (eventType : HookEventType) (context : HookContext)
    (handler : HookContext → Except String Unit) : List HookLog :=
  match handler context with
  | .ok _ => []
  | .error e => [.eventHandlerFailed eventType e]

/-- HookManager.emit: filter the enabled hooks whose trigger tag matches
the event, apply the pattern gate, execute each surviving hook in order,
then notify the event listeners.  The source returns void; the per-hook
results and the log entries are the observable outcome and are returned
here.  The try/catch around executeHookAction has nothing left to catch in
the embedding because both executors already catch internally, so emit
never throws. -/
def emit (env : HookEnv) (mp : String → String → Bool)
    (hooks : List (String × HookConfig))
    (listeners : List (HookContext → Except String Unit))
    (eventType : HookEventType) (context : HookContext) :
    List (String × HookResult) × List HookLog :=
  let matchingHooks := (hooks.map Prod.snd).filter
    (fun hook => hook.enabled && hook.trigger.eventType == eventType)
  let executed := (matchingHooks.filter
    (fun hook => patternGate mp hook context)).map
    (fun hook => runHook env hook context)
  (executed.map Prod.fst,
   (executed.map Prod.snd).flatten ++
     (listeners.map (notifyListener eventType context)).flatten)

/-- Specification-side description of the hooks emit runs: enabled, tag
matches, pattern gate passes. -/
def dispatchedHooks (mp : String → String → Bool)
    (hooks : List (String × HookConfig)) (eventType : HookEventType)
    (context : HookContext) : List HookConfig :=
  ((hooks.map Prod.snd).filter
    (fun hook => hook.enabled && hook.trigger.eventType == eventType)).filter
    (fun hook => patternGate mp hook context)

theorem emit_results (env : HookEnv) (mp : String → String → Bool)
    (hooks : List (String × HookConfig))
    (listeners : List (HookContext → Except String Unit))
    (eventType : HookEventType) (context : HookContext) :
    (emit env mp hooks listeners eventType context).1 =
      (dispatchedHooks mp hooks eventType context).map
        (fun hook => (hook.id, executeHookAction env hook context)) := by
  simp [emit, dispatchedHooks, runHook, List.map_map, Function.comp]

/-- C3: failure isolation of emit.  The per-hook results are exactly the
matching hooks mapped through their own action execution, so the result of
one rule never depends on the failure of another, every matching rule is
executed even when an earlier one failed, and nothing escapes the call
(emit is a total function; every throw is caught inside the executors).
Furthermore each failure whose error text is nonempty is logged. -/
theorem emit_failure_isolation (env : HookEnv) (mp : String → String → Bool)
    (hooks : List (String × HookConfig))
    (listeners : List (HookContext → Except String Unit))
    (eventType : HookEventType) (context : HookContext) :
    (emit env mp hooks listeners eventType context).1 =
      (dispatchedHooks mp hooks eventType context).map
        (fun hook => (hook.id, executeHookAction env hook context))
    ∧ ∀ hook ∈ dispatchedHooks mp hooks eventType context, ∀ e : String,
        (executeHookAction env hook context).success = false →
        (executeHookAction env hook context).error = some e →
        e ≠ "" →
        HookLog.hookExecutionFailed hook.id e ∈
          (emit env mp hooks listeners eventType context).2 := by
  refine ⟨emit_results env mp hooks listeners eventType context, ?_⟩
  intro hook hmem e hfail herr hne
  apply List.mem_append_left
  rw [List.mem_flatten]
  refine ⟨(runHook env hook context).2, ?_, ?_⟩
  · simp only [emit, List.map_map]
    exact List.mem_map_of_mem _ hmem
  · simp [runHook, hfail, herr, hne]

theorem emit_failure_isolation_witness :
    HookLog.hookExecutionFailed "a" "boom" ∈
      (emit ⟨none, fun c _ => if c = "good" then .ok ("done", "")
                              else .error "boom"⟩
        (fun _ _ => true)
        [("a", ⟨"a", "A", none, .manual, .execute_command "bad" none,
                true, none⟩),
         ("b", ⟨"b", "B", none, .manual, .execute_command "good" none,
                true, none⟩)]
        [] .manual ⟨none, none, none, none, none⟩).2
    ∧ (emit ⟨none, fun c _ => if c = "good" then .ok ("done", "")
                              else .error "boom"⟩
        (fun _ _ => true)
        [("a", ⟨"a", "A", none, .manual, .execute_command "bad" none,
                true, none⟩),
         ("b", ⟨"b", "B", none, .manual, .execute_command "good" none,
                true, none⟩)]
        [] .manual ⟨none, none, none, none, none⟩).1 =
      [("a", ⟨false, none, some "boom"⟩),
       ("b", ⟨true, some "done", none⟩)] := by
  constructor
  · exact (emit_failure_isolation
      ⟨none, fun c _ => if c = "good" then .ok ("done", "")
                        else .error "boom"⟩
      (fun _ _ => true)
      [("a", ⟨"a", "A", none, .manual, .execute_command "bad" none,
              true, none⟩),
       ("b", ⟨"b", "B", none, .manual, .execute_command "good" none,
              true, none⟩)]
      [] .manual ⟨none, none, none, none, none⟩).2
      ⟨"a", "A", none, .manual, .execute_command "bad" none, true, none⟩
      (by decide) "boom" (by decide) (by decide) (by decide)
  · rw [(emit_failure_isolation
      ⟨none, fun c _ => if c = "good" then .ok ("done", "")
                        else .error "boom"⟩
      (fun _ _ => true)
      [("a", ⟨"a", "A", none, .manual, .execute_command "bad" none,
              true, none⟩),
       ("b", ⟨"b", "B", none, .manual, .execute_command "good" none,
              true, none⟩)]
      [] .manual ⟨none, none, none, none, none⟩).1]
    decide

/-- C10: for an enabled file_save rule carrying a pattern, a file_save
dispatch whose context has no filePath executes the action anyway: the
pattern restriction applies only when a filePath is supplied. -/
theorem emit_executes_file_save_without_path (env : HookEnv)
    (mp : String → String → Bool) (hooks : List (String × HookConfig))
    (listeners : List (HookContext → Except String Unit))
    (context : HookContext) (hook : HookConfig) (pattern : String) :
    context.filePath = none →
    hook ∈ hooks.map Prod.snd →
    hook.enabled = true →
    hook.trigger = .file_save (some pattern) →
    (hook.id, executeHookAction env hook context) ∈
      (emit env mp hooks listeners .file_save context).1 := by
  intro hfp hmem hen htr
  rw [emit_results]
  apply List.mem_map_of_mem
  simp only [dispatchedHooks, List.mem_filter]
  refine ⟨⟨hmem, ?_⟩, ?_⟩
  · simp [hen, htr, HookTrigger.eventType]
  · simp [patternGate, htr, hfp]

theorem emit_executes_file_save_without_path_witness :
    ("f", (⟨false, none, some "No message sender configured"⟩ : HookResult)) ∈
      (emit ⟨none, fun _ _ => .error "x"⟩ (fun _ _ => false)
        [("f", ⟨"f", "F", none, .file_save (some "**/*.ts"),
                .send_message "saved {filePath}", true, none⟩)]
        [] .file_save ⟨none, none, none, none, none⟩).1 := by
  exact emit_executes_file_save_without_path
    ⟨none, fun _ _ => .error "x"⟩ (fun _ _ => false)
    [("f", ⟨"f", "F", none, .file_save (some "**/*.ts"),
            .send_message "saved {filePath}", true, none⟩)]
    [] ⟨none, none, none, none, none⟩
    ⟨"f", "F", none, .file_save (some "**/*.ts"),
     .send_message "saved {filePath}", true, none⟩
    "**/*.ts" rfl (by decide) rfl rfl

/-- C4 counterexample: registering a second rule with an id that already
exists does not fail with a duplicate error; it succeeds and silently
overwrites the stored rule and its persisted file. -/
theorem registerHook_duplicate_not_rejected :
    registerHook { files := [], hooks := [] }
      ⟨"dup", "First", none, .manual, .send_message "one", true, none⟩ =
      .ok { files := [(".kiro/hooks/dup.json",
              ⟨"dup", "First", none, .manual, .send_message "one",
               true, none⟩)],
            hooks := [("dup",
              ⟨"dup", "First", none, .manual, .send_message "one",
               true, none⟩)] }
    ∧ registerHook
        { files := [(".kiro/hooks/dup.json",
            ⟨"dup", "First", none, .manual, .send_message "one",
             true, none⟩)],
          hooks := [("dup",
            ⟨"dup", "First", none, .manual, .send_message "one",
             true, none⟩)] }
        ⟨"dup", "Second", none, .manual, .send_message "two", true, none⟩ =
      .ok { files := [(".kiro/hooks/dup.json",
              ⟨"dup", "Second", none, .manual, .send_message "two",
               true, none⟩)],
            hooks := [("dup",
              ⟨"dup", "Second", none, .manual, .send_message "two",
               true, none⟩)] } :=
  ⟨rfl, rfl⟩

/-- C4 amended: registerHook performs no duplicate-id check.  For every
state and every rule passing validation, registration succeeds and stores
the rule under its id, replacing any existing entry with that id both in
memory and in the persisted file. -/
theorem registerHook_overwrites (state : HookState) (hook : HookConfig) :
    validateHook hook = .ok () →
    registerHook state hook =
      .ok { files := setKey state.files (getHookPath hook.id) hook
            hooks := setKey state.hooks hook.id hook }
    ∧ (setKey state.hooks hook.id hook).lookup hook.id = some hook := by
  intro hv
  exact ⟨by simp [registerHook, hv], setKey_lookup _ _ _⟩

theorem registerHook_overwrites_witness :
    registerHook
      { files := [(".kiro/hooks/dup.json",
          ⟨"dup", "First", none, .manual, .send_message "one",
           true, none⟩)],
        hooks := [("dup",
          ⟨"dup", "First", none, .manual, .send_message "one",
           true, none⟩)] }
      ⟨"dup", "Third", none, .manual, .send_message "three", true, none⟩ =
      .ok { files := [(".kiro/hooks/dup.json",
              ⟨"dup", "Third", none, .manual, .send_message "three",
               true, none⟩)],
            hooks := [("dup",
              ⟨"dup", "Third", none, .manual, .send_message "three",
               true, none⟩)] } := by
  have h := (registerHook_overwrites
    { files := [(".kiro/hooks/dup.json",
        ⟨"dup", "First", none, .manual, .send_message "one",
         true, none⟩)],
      hooks := [("dup",
        ⟨"dup", "First", none, .manual, .send_message "one",
         true, none⟩)] }
    ⟨"dup", "Third", none, .manual, .send_message "three", true, none⟩
    rfl).1
  exact h

/-- C6 counterexample: a send_message rule whose message is the empty
string, and an execute_command rule whose command is the empty string, are
both accepted by registration; no validation error is raised for them. -/
theorem registerHook_accepts_empty_payload :
    registerHook { files := [], hooks := [] }
      ⟨"h", "Name", none, .manual, .send_message "", true, none⟩ =
      .ok { files := [(".kiro/hooks/h.json",
              ⟨"h", "Name", none, .manual, .send_message "", true, none⟩)],
            hooks := [("h",
              ⟨"h", "Name", none, .manual, .send_message "", true, none⟩)] }
    ∧ validateHook
        ⟨"k", "Name", none, .manual, .execute_command "" none, true, none⟩ =
      .ok () :=
  ⟨rfl, rfl⟩

/-- C6 amended: validateHook checks only that id and name are present and
not whitespace-only; the action payload checks of the source test field
presence, which every well-typed rule satisfies, so the content of message
and command is never inspected and empty ones are accepted.  A rule
failing validation is rejected before any state mutation. -/
theorem validateHook_blank_checks_only (state : HookState)
    (hook : HookConfig) :
    (isBlank hook.id = true →
      registerHook state hook = .error "Hook ID cannot be empty")
    ∧ (isBlank hook.id = false → isBlank hook.name = true →
      registerHook state hook = .error "Hook name cannot be empty")
    ∧ (isBlank hook.id = false → isBlank hook.name = false →
      registerHook state hook =
        .ok { files := setKey state.files (getHookPath hook.id) hook
              hooks := setKey state.hooks hook.id hook }) := by
  refine ⟨?_, ?_, ?_⟩
  · intro h
    simp [registerHook, validateHook, h]
  · intro h1 h2
    simp [registerHook, validateHook, h1, h2]
  · intro h1 h2
    simp [registerHook, validateHook, h1, h2]

theorem validateHook_blank_checks_only_witness :
    registerHook { files := [], hooks := [] }
      ⟨"  ", "Name", none, .manual, .send_message "hi", true, none⟩ =
      .error "Hook ID cannot be empty"
    ∧ registerHook { files := [], hooks := [] }
        ⟨"c", "C", none, .manual, .execute_command "" none, true, none⟩ =
      .ok { files := [(".kiro/hooks/c.json",
              ⟨"c", "C", none, .manual, .execute_command "" none,
               true, none⟩)],
            hooks := [("c",
              ⟨"c", "C", none, .manual, .execute_command "" none,
               true, none⟩)] } :=
  ⟨(validateHook_blank_checks_only { files := [], hooks := [] }
      ⟨"  ", "Name", none, .manual, .send_message "hi", true, none⟩).1
      (by decide),
   by
    have h := (validateHook_blank_checks_only { files := [], hooks := [] }
      ⟨"c", "C", none, .manual, .execute_command "" none, true, none⟩).2.2
      (by decide) (by decide)
    exact h.trans rfl⟩

end HookManager

namespace ConfigReloader

/-- Outcomes of the three document-store refresh calls.  A manager that was
not supplied in the constructor options is modelled by none, matching the
early return of each reload method; otherwise the refresh call either
resolves or rejects with an error. -/
structure ReloadEnv where
  specManager : Option (Except String Unit)
  hookManager : Option (Except String Unit)
  steeringManager : Option (Except String Unit)

/-- Log lines written through the IReloadLogger. -/
inductive ReloadLog where
  | info (message : String)
  | error (message : String)
deriving DecidableEq, Repr

/-- ConfigReloader.reloadSpecs: no-op without a spec manager; on success
logs the info line; on failure logs the error line and rethrows the
error (the source throw statement after logging). -/
def reloadSpecs (env : ReloadEnv) : List ReloadLog × Except String Unit :=
  match env.specManager with
  | none => ([], .ok ())
  | some (.ok _) => ([.info "Specs reloaded"], .ok ())
  | some (.error e) => ([.error "Failed to reload specs"], .error e)

/-- ConfigReloader.reloadHooks: same shape over the hook manager. -/
def reloadHooks (env : ReloadEnv) : List ReloadLog × Except String Unit :=
  match env.hookManager with
  | none => ([], .ok ())
  | some (.ok _) => ([.info "Hooks reloaded"], .ok ())
  | some (.error e) => ([.error "Failed to reload hooks"], .error e)

/-- ConfigReloader.reloadSteering: same shape over the steering manager. -/
def reloadSteering (env : ReloadEnv) : List ReloadLog × Except String Unit :=
  match env.steeringManager with
  | none => ([], .ok ())
  | some (.ok _) => ([.info "Steering files reloaded"], .ok ())
  | some (.error e) => ([.error "Failed to reload steering files"], .error e)

/-- Promise.all over three already-started promises: it settles
successfully only when all three resolve, and rejects with the rejection
of a failing member (here deterministically the first in argument order;
only whether a rejection escapes matters below). -/
def promiseAll3 (a b c : Except String Unit) : Except String Unit :=
  match a with
  | .error e => .error e
  | .ok _ =>
    match b with
    | .error e => .error e
    | .ok _ => c

/-- ConfigReloader.reloadAll: Promise.all over the three category reloads.
All three promise bodies start immediately, so every category runs and
produces its logs regardless of the others, and the await rethrows the
rejection of any failing category out of reloadAll. -/
def reloadAll (env : ReloadEnv) : List ReloadLog × Except String Unit :=
  ((reloadSpecs env).1 ++ (reloadHooks env).1 ++ (reloadSteering env).1,
   promiseAll3 (reloadSpecs env).2 (reloadHooks env).2 (reloadSteering env).2)

/-- C5 counterexample: with the specs refresh failing and the other two
succeeding, reloadAll rejects with that failure, so a ReloadFailure does
escape reloadAll to its caller; the other two categories still ran and
logged their success. -/
theorem reloadAll_propagates_failure :
    (reloadAll ⟨some (.error "boom"), some (.ok ()), some (.ok ())⟩).2 =
      .error "boom"
    ∧ (reloadAll ⟨some (.error "boom"), some (.ok ()), some (.ok ())⟩).1 =
      [.error "Failed to reload specs", .info "Hooks reloaded",
       .info "Steering files reloaded"] :=
  ⟨rfl, rfl⟩

/-- C5 amended: reloadAll invokes all three category reloads concurrently
and a failure in one category does not prevent the other categories from
running (every category logs its own outcome unconditionally), but
reloadAll resolves successfully exactly when all three categories succeed:
a single failing category makes reloadAll reject, propagating the
ReloadFailure to its caller. -/
theorem reloadAll_runs_all_categories (env : ReloadEnv) :
    (reloadAll env).1 =
      (reloadSpecs env).1 ++ (reloadHooks env).1 ++ (reloadSteering env).1
    ∧ ((reloadAll env).2 = .ok () ↔
        (reloadSpecs env).2 = .ok () ∧ (reloadHooks env).2 = .ok ()
          ∧ (reloadSteering env).2 = .ok ()) := by
  refine ⟨rfl, ?_⟩
  cases ha : (reloadSpecs env).2 <;> cases hb : (reloadHooks env).2 <;>
    cases hc : (reloadSteering env).2 <;>
      simp [reloadAll, promiseAll3, ha, hb, hc]

end ConfigReloader

namespace ConfigWatcher

/-- Configuration change categories (type ConfigChangeType). -/
inductive ConfigChangeType where
  | specs
  | hooks
  | steering
deriving DecidableEq, Repr

/-- Raw change kinds of the low-level watch primitive. -/
inductive WatchEventType where
  | create
  | change
  | delete
deriving DecidableEq, Repr

/-- Raw watch event (interface WatchEvent). -/
structure WatchEvent where
  type : WatchEventType
  path : String
deriving DecidableEq, Repr

/-- The string form of a category used in the debounce key. -/
def configTypeKey : ConfigChangeType → String
  | .specs => "specs"
  | .hooks => "hooks"
  | .steering => "steering"

/-- The debounce key built by handleChange: category and path joined by a
colon. -/
def debounceKey (type : ConfigChangeType) (event : WatchEvent) : String :=
  configTypeKey type ++ ":" ++ event.path

/-- Coalesced notification delivered to handlers (interface
ConfigChangeEvent). -/
structure ConfigChangeEvent where
  type : ConfigChangeType
  event : WatchEvent
deriving DecidableEq, Repr

/-- A pending debounce timer: its map key, the payload its setTimeout
callback captured, and the instant it is scheduled to fire. -/
structure PendingTimer where
  key : String
  payload : ConfigChangeEvent
  expiry : Nat
deriving DecidableEq, Repr

/-- State of a ConfigWatcher: the watching flag, the debounceTimers map
(keys are unique, proved below rather than assumed), and the list of
coalesced notifications delivered to the handlers so far. -/
structure WatcherState where
  watching : Bool
  debounceTimers : List PendingTimer
  emitted : List ConfigChangeEvent
deriving DecidableEq, Repr

/-- A fresh watcher: stopped, no timers, nothing emitted. -/
def initialState : WatcherState := ⟨false, [], []⟩

/-- Every timer whose expiry has been reached by time t fires: it removes
itself from the map and delivers its captured payload to the handlers
(notifyHandlers).  In the single-threaded event loop these callbacks run
as time passes, before any later call into the watcher. -/
def fireDue (s : WatcherState) (t : Nat) : WatcherState :=
  { s with
    debounceTimers :=
      s.debounceTimers.filter (fun timer => decide (t < timer.expiry)),
    emitted := s.emitted ++
      (s.debounceTimers.filter
        (fun timer => decide (timer.expiry ≤ t))).map
        (fun timer => timer.payload) }

/-- ConfigWatcher.handleChange at time now with debounce delay: clear any
existing timer for the key and set a fresh one expiring at now plus the
delay.  The source Map.set keeps the position of a replaced entry; the
remove-then-append model differs only in the relative order of entries
with distinct keys, which no property below depends on. -/
def handleChange (s : WatcherState) (type : ConfigChangeType)
    (event : WatchEvent) (now delay : Nat) : WatcherState :=
  { s with
    debounceTimers :=
      s.debounceTimers.filter
        (fun timer => timer.key != debounceKey type event) ++
      [⟨debounceKey type event, ⟨type, event⟩, now + delay⟩] }

/-- External stimuli of a watcher: start, a raw filesystem change event
for a watched root, the mere passage of time, and stop. -/
inductive WatchCmd where
  | start
  | rawChange (type : ConfigChangeType) (event : WatchEvent)
  | tick
  | stop
deriving DecidableEq, Repr

/-- One scheduler step at time t: timers that have come due fire first,
then the command is processed.  start is idempotent (early return while
watching).  rawChange reaches handleChange only while watching because
stop disposes the underlying watch subscriptions that invoke it.  stop is
idempotent and clears every pending debounce timer. -/
def step (delay : Nat) (s : WatcherState) (c : WatchCmd) (t : Nat) :
    WatcherState :=
  let s := fireDue s t
  match c with
  | .start => if s.watching then s else { s with watching := true }
  | .rawChange type event =>
    if s.watching then handleChange s type event t delay else s
  | .tick => s
  | .stop =>
    if !s.watching then s
    else { s with watching := false, debounceTimers := [] }

/-- Run a timestamped command trace from the fresh watcher. -/
def run (delay : Nat) (cmds : List (WatchCmd × Nat)) : WatcherState :=
  cmds.foldl (fun s ct => step delay s ct.1 ct.2) initialState

theorem timerKeys_nodup_fireDue (s : WatcherState) (t : Nat)
    (h : (s.debounceTimers.map PendingTimer.key).Nodup) :
    (((fireDue s t).debounceTimers).map PendingTimer.key).Nodup := by
  exact List.Nodup.sublist
    ((List.filter_sublist _).map PendingTimer.key) h

theorem timerKeys_nodup_handleChange (s : WatcherState)
    (type : ConfigChangeType) (event : WatchEvent) (now delay : Nat)
    (h : (s.debounceTimers.map PendingTimer.key).Nodup) :
    (((handleChange s type event now delay).debounceTimers).map
      PendingTimer.key).Nodup := by
  simp only [handleChange, List.map_append]
  refine List.Nodup.append
    (List.Nodup.sublist ((List.filter_sublist _).map PendingTimer.key) h)
    (by simp) ?_
  intro a ha hb
  simp only [List.map_cons, List.map_nil, List.mem_singleton] at hb
  subst hb
  simp only [List.mem_map, List.mem_filter] at ha
  obtain ⟨timer, ⟨_, hne⟩, hkey⟩ := ha
  exact absurd hkey (by simpa using hne)

theorem step_timerKeys_nodup (delay : Nat) (s : WatcherState)
    (c : WatchCmd) (t : Nat)
    (h : (s.debounceTimers.map PendingTimer.key).Nodup) :
    (((step delay s c t).debounceTimers).map PendingTimer.key).Nodup := by
  have h1 := timerKeys_nodup_fireDue s t h
  cases c with
  | start =>
    by_cases hw : (fireDue s t).watching = true <;> simp [step, hw, h1]
  | rawChange ty ev =>
    by_cases hw : (fireDue s t).watching = true
    · simp only [step, hw, if_true]
      exact timerKeys_nodup_handleChange _ ty ev t delay h1
    · simp [step, hw, h1]
  | tick => simpa [step] using h1
  | stop =>
    by_cases hw : (fireDue s t).watching = true <;> simp [step, hw, h1]

theorem foldl_timerKeys_nodup (delay : Nat) (cmds : List (WatchCmd × Nat)) :
    ∀ s : WatcherState, (s.debounceTimers.map PendingTimer.key).Nodup →
    (((cmds.foldl (fun s ct => step delay s ct.1 ct.2)
        s).debounceTimers).map PendingTimer.key).Nodup := by
  induction cmds with
  | nil => intro s hs; exact hs
  | cons c cs ih =>
    intro s hs
    simp only [List.foldl_cons]
    exact ih _ (step_timerKeys_nodup delay s c.1 c.2 hs)

theorem run_timerKeys_nodup (delay : Nat) (cmds : List (WatchCmd × Nat)) :
    (((run delay cmds).debounceTimers).map PendingTimer.key).Nodup :=
  foldl_timerKeys_nodup delay cmds initialState (by simp [initialState])

theorem step_raw_within (delay t u : Nat) (type : ConfigChangeType)
    (event : WatchEvent) (s : WatcherState)
    (hw : s.watching = true)
    (ht : s.debounceTimers =
      [⟨debounceKey type event, ⟨type, event⟩, t + delay⟩])
    (hu : u < t + delay) :
    (step delay s (.rawChange type event) u).watching = true
    ∧ (step delay s (.rawChange type event) u).emitted = s.emitted
    ∧ (step delay s (.rawChange type event) u).debounceTimers =
        [⟨debounceKey type event, ⟨type, event⟩, u + delay⟩] := by
  have h1 : ¬ (t + delay ≤ u) := by omega
  simp [step, fireDue, handleChange, ht, hw, hu, h1]

theorem raws_coalesce (delay : Nat) (type : ConfigChangeType)
    (event : WatchEvent) (ts : List Nat) :
    ∀ (t : Nat) (s : WatcherState),
    s.watching = true →
    s.debounceTimers =
      [⟨debounceKey type event, ⟨type, event⟩, t + delay⟩] →
    List.Chain (fun a b => b < a + delay) t ts →
    ((ts.map (fun u => (WatchCmd.rawChange type event, u))).foldl
        (fun s ct => step delay s ct.1 ct.2) s).watching = true
    ∧ ((ts.map (fun u => (WatchCmd.rawChange type event, u))).foldl
        (fun s ct => step delay s ct.1 ct.2) s).emitted = s.emitted
    ∧ ((ts.map (fun u => (WatchCmd.rawChange type event, u))).foldl
        (fun s ct => step delay s ct.1 ct.2) s).debounceTimers =
        [⟨debounceKey type event, ⟨type, event⟩,
          ts.getLastD t + delay⟩] := by
  induction ts with
  | nil =>
    intro t s hw ht _
    exact ⟨hw, rfl, by simpa [List.getLastD] using ht⟩
  | cons u us ih =>
    intro t s hw ht hchain
    rw [List.chain_cons] at hchain
    obtain ⟨hu, hcs⟩ := hchain
    obtain ⟨hw2, he2, ht2⟩ := step_raw_within delay t u type event s hw ht hu
    simp only [List.map_cons, List.foldl_cons]
    obtain ⟨a, b, c⟩ :=
      ih u (step delay s (.rawChange type event) u) hw2 ht2 hcs
    refine ⟨a, b.trans he2, ?_⟩
    rw [c, List.getLastD_cons]

theorem step_tick_fires (delay T : Nat) (s : WatcherState) (key : String)
    (payload : ConfigChangeEvent)
    (ht : s.debounceTimers = [⟨key, payload, T⟩]) :
    (step delay s WatchCmd.tick T).emitted = s.emitted ++ [payload] := by
  simp [step, fireDue, ht]

theorem run_coalesces (delay t0 t1 : Nat) (type : ConfigChangeType)
    (event : WatchEvent) (rest : List Nat)
    (hchain : List.Chain (fun a b => b < a + delay) t1 rest) :
    (run delay ((WatchCmd.start, t0) ::
      (t1 :: rest).map (fun u => (WatchCmd.rawChange type event, u)) ++
      [(WatchCmd.tick, rest.getLastD t1 + delay)])).emitted =
      [⟨type, event⟩] := by
  have hs2w : (step delay (step delay initialState WatchCmd.start t0)
      (WatchCmd.rawChange type event) t1).watching = true := rfl
  have hs2t : (step delay (step delay initialState WatchCmd.start t0)
      (WatchCmd.rawChange type event) t1).debounceTimers =
      [⟨debounceKey type event, ⟨type, event⟩, t1 + delay⟩] := rfl
  obtain ⟨hw3, he3, ht3⟩ :=
    raws_coalesce delay type event rest t1 _ hs2w hs2t hchain
  have hemp : ((rest.map (fun u => (WatchCmd.rawChange type event, u))).foldl
      (fun s ct => step delay s ct.1 ct.2)
      (step delay (step delay initialState WatchCmd.start t0)
        (WatchCmd.rawChange type event) t1)).emitted = [] := he3
  simp only [run, List.map_cons, List.cons_append, List.foldl_cons,
    List.foldl_append, List.foldl_nil]
  rw [step_tick_fires delay (rest.getLastD t1 + delay) _
    (debounceKey type event) ⟨type, event⟩ ht3, hemp]
  rfl

theorem step_stop_watching (delay : Nat) (s : WatcherState) (t : Nat) :
    (step delay s WatchCmd.stop t).watching = false := by
  by_cases hw : s.watching = true
  · simp [step, fireDue, hw]
  · have hw2 : s.watching = false := by simpa using hw
    simp [step, fireDue, hw2]

theorem step_stopped_inv (delay : Nat) (s : WatcherState) (c : WatchCmd)
    (t : Nat) (h : s.watching = false → s.debounceTimers = []) :
    (step delay s c t).watching = false →
      (step delay s c t).debounceTimers = [] := by
  intro habs
  by_cases hw : s.watching = true
  · have hfw : (fireDue s t).watching = true := hw
    cases c with
    | start => simp [step, hfw] at habs
    | rawChange ty ev =>
      rw [step] at habs
      simp only [hfw, if_true] at habs
      exact absurd habs (by simp [handleChange, fireDue, hw])
    | tick => exact absurd habs (by simp [step, fireDue, hw])
    | stop => simp [step, hfw]
  · have hw2 : s.watching = false := by simpa using hw
    have htim : s.debounceTimers = [] := h hw2
    cases c with
    | start => simp [step, fireDue, hw2, htim] at habs
    | rawChange ty ev => simp [step, fireDue, hw2, htim]
    | tick => simp [step, fireDue, htim]
    | stop => simp [step, fireDue, hw2, htim]

theorem foldl_stopped_inv (delay : Nat) (cmds : List (WatchCmd × Nat)) :
    ∀ s : WatcherState, (s.watching = false → s.debounceTimers = []) →
    (cmds.foldl (fun s ct => step delay s ct.1 ct.2) s).watching = false →
    (cmds.foldl (fun s ct => step delay s ct.1 ct.2) s).debounceTimers
      = [] := by
  induction cmds with
  | nil => intro s hs; exact hs
  | cons c cs ih =>
    intro s hs
    simp only [List.foldl_cons]
    exact ih _ (step_stopped_inv delay s c.1 c.2 hs)

theorem run_stopped_inv (delay : Nat) (cmds : List (WatchCmd × Nat)) :
    (run delay cmds).watching = false →
    (run delay cmds).debounceTimers = [] :=
  foldl_stopped_inv delay cmds initialState (fun _ => rfl)

theorem steps_after_stop (delay : Nat) (post : List (WatchCmd × Nat)) :
    ∀ s : WatcherState, s.watching = false → s.debounceTimers = [] →
    (∀ c ∈ post, c.1 ≠ WatchCmd.start) →
    (post.foldl (fun s ct => step delay s ct.1 ct.2) s).emitted =
      s.emitted
    ∧ (post.foldl (fun s ct => step delay s ct.1 ct.2) s).watching = false
    ∧ (post.foldl (fun s ct => step delay s ct.1 ct.2) s).debounceTimers
        = [] := by
  induction post with
  | nil => intro s h1 h2 _; exact ⟨rfl, h1, h2⟩
  | cons c cs ih =>
    intro s h1 h2 hns
    have hcne : c.1 ≠ WatchCmd.start := hns c (List.mem_cons_self c cs)
    have hstep : (step delay s c.1 c.2).emitted = s.emitted
        ∧ (step delay s c.1 c.2).watching = false
        ∧ (step delay s c.1 c.2).debounceTimers = [] := by
      cases hc : c.1 with
      | start => exact absurd hc hcne
      | rawChange ty ev => simp [step, fireDue, h1, h2]
      | tick => simp [step, fireDue, h1, h2]
      | stop => simp [step, fireDue, h1, h2]
    obtain ⟨e1, w1, t1⟩ := hstep
    simp only [List.foldl_cons]
    obtain ⟨a, b, cc⟩ := ih (step delay s c.1 c.2) w1 t1
      (fun d hd => hns d (List.mem_cons_of_mem c hd))
    exact ⟨a.trans e1, b, cc⟩

theorem emitted_frozen_after_stop (delay : Nat)
    (pre post : List (WatchCmd × Nat)) (t : Nat)
    (hns : ∀ c ∈ post, c.1 ≠ WatchCmd.start) :
    (run delay (pre ++ (WatchCmd.stop, t) :: post)).emitted =
      (run delay (pre ++ [(WatchCmd.stop, t)])).emitted := by
  have hsplit : pre ++ (WatchCmd.stop, t) :: post =
      (pre ++ [(WatchCmd.stop, t)]) ++ post := by simp
  rw [hsplit]
  have hrun : run delay ((pre ++ [(WatchCmd.stop, t)]) ++ post) =
      post.foldl (fun s ct => step delay s ct.1 ct.2)
        (run delay (pre ++ [(WatchCmd.stop, t)])) := by
    simp [run, List.foldl_append]
  have hw : (run delay (pre ++ [(WatchCmd.stop, t)])).watching = false := by
    have : run delay (pre ++ [(WatchCmd.stop, t)]) =
        step delay (run delay pre) WatchCmd.stop t := by
      simp [run, List.foldl_append]
    rw [this]
    exact step_stop_watching delay (run delay pre) t
  have htim := run_stopped_inv delay (pre ++ [(WatchCmd.stop, t)]) hw
  rw [hrun]
  exact (steps_after_stop delay post _ hw htim hns).1

/-- C9: debounce behaviour of the Change Watcher.  First, in every
reachable state the debounceTimers map holds at most one pending timer per
key (the key list has no duplicate).  Second, a start followed by any
number of raw change events for the same (category, path), each arriving
strictly within the debounce window of its predecessor, followed by
quiescence until the last window expires, delivers exactly one coalesced
notification.  Third, once stop has run, no queued timer ever fires: the
emitted notifications never change over any continuation that does not
start the watcher again. -/
theorem debounce_properties :
    (∀ (delay : Nat) (cmds : List (WatchCmd × Nat)),
      (((run delay cmds).debounceTimers).map PendingTimer.key).Nodup)
    ∧ (∀ (delay t0 t1 : Nat) (type : ConfigChangeType)
        (event : WatchEvent) (rest : List Nat),
        List.Chain (fun a b => b < a + delay) t1 rest →
        (run delay ((WatchCmd.start, t0) ::
          (t1 :: rest).map (fun u => (WatchCmd.rawChange type event, u)) ++
          [(WatchCmd.tick, rest.getLastD t1 + delay)])).emitted =
          [⟨type, event⟩])
    ∧ (∀ (delay : Nat) (pre post : List (WatchCmd × Nat)) (t : Nat),
        (∀ c ∈ post, c.1 ≠ WatchCmd.start) →
        (run delay (pre ++ (WatchCmd.stop, t) :: post)).emitted =
          (run delay (pre ++ [(WatchCmd.stop, t)])).emitted) :=
  ⟨run_timerKeys_nodup,
   fun delay t0 t1 type event rest hchain =>
     run_coalesces delay t0 t1 type event rest hchain,
   fun delay pre post t hns =>
     emitted_frozen_after_stop delay pre post t hns⟩

theorem debounce_properties_witness :
    (run 100 [(WatchCmd.start, 0),
      (WatchCmd.rawChange .specs ⟨.change, "a.md"⟩, 5),
      (WatchCmd.rawChange .specs ⟨.change, "a.md"⟩, 10),
      (WatchCmd.rawChange .specs ⟨.change, "a.md"⟩, 20),
      (WatchCmd.tick, 120)]).emitted = [⟨.specs, ⟨.change, "a.md"⟩⟩]
    ∧ (run 100 [(WatchCmd.start, 0),
        (WatchCmd.rawChange .specs ⟨.change, "a.md"⟩, 5),
        (WatchCmd.stop, 7), (WatchCmd.tick, 300)]).emitted =
      (run 100 [(WatchCmd.start, 0),
        (WatchCmd.rawChange .specs ⟨.change, "a.md"⟩, 5),
        (WatchCmd.stop, 7)]).emitted := by
  constructor
  · exact debounce_properties.2.1 100 0 5 .specs ⟨.change, "a.md"⟩
      [10, 20]
      (List.Chain.cons (by omega) (List.Chain.cons (by omega)
        List.Chain.nil))
  · exact debounce_properties.2.2 100
      [(WatchCmd.start, 0),
       (WatchCmd.rawChange .specs ⟨.change, "a.md"⟩, 5)]
      [(WatchCmd.tick, 300)] 7 (by decide)

end ConfigWatcher
